import Mathlib

/-!
Verification development for the ballot-session engine of the voting app.

The definitions below are a shallow embedding of `src/app/home.tsx`:
the candidate grouping performed in `fetchCandidates`, the biometric
gate `authenticateWithBiometrics`, the per-category vote handler
`handleVote`, the selection handler `handleSelect` and the final batch
handler `handleFinalSubmit`.  JavaScript records keyed by strings are
embedded as creation-ordered association lists; for the grouping record,
whose enumeration order and prototype-chain lookups are observable, the
`Object.values` ordering of array-index-like keys and the inherited
`Object.prototype` members are modelled explicitly.  JavaScript
truthiness of candidate identifiers (`string | number`) is `truthy`, and
the external services (biometric device, network, credential storage) are
an oracle of boolean outcomes plus an explicit trace of the external
calls a handler performs, each paired with the value of the
`isSubmitting` busy flag at the moment the call is awaited.
-/

namespace VoteApp

/-- A candidate identifier: the TypeScript type is `string | number`. -/
inductive CandidateId where
  | str (s : String)
  | num (n : Int)
deriving DecidableEq

/-- JavaScript truthiness of a candidate identifier: the number `0` and the
empty string are falsy, every other value is truthy. -/
def truthy : CandidateId → Bool
  | CandidateId.str s => !(s = "")
  | CandidateId.num n => !(n = 0)

/-- JavaScript truthiness of `selectedVotes[position]`, where a missing key
reads as `undefined` (falsy). -/
def truthyOpt : Option CandidateId → Bool
  | none => false
  | some c => truthy c

/-- A candidate record as delivered by the catalog endpoint.  The grouping
code reads `candidate.position ?? 'Unknown Position'`, so the position
field may be absent at runtime and is embedded as an `Option`. -/
structure Candidate where
  id : CandidateId
  name : String
  dept : String
  image : Option String
  position : Option String
deriving DecidableEq

/-- The grouping key of a candidate: `candidate.position ?? 'Unknown Position'`. -/
def candKey (c : Candidate) : String := c.position.getD "Unknown Position"

/-- A category group: one electoral position together with its candidates,
mirroring the `CandidateGroup` type of the source. -/
structure CandidateGroup where
  position : String
  candidates : List Candidate
deriving DecidableEq

/-- The own-key record update of the grouping: push the candidate onto the
group under key `pos` when that own key exists, and create a fresh group
at the end otherwise.  The record's own keys are embedded as a
creation-ordered list; the prototype-chain lookup that `acc[position]`
performs on top of this is modelled in `groupStep`. -/
def groupInsert : List CandidateGroup → String → Candidate → List CandidateGroup
  | [], pos, c => [⟨pos, [c]⟩]
  | g :: gs, pos, c =>
    if g.position = pos then ⟨g.position, g.candidates ++ [c]⟩ :: gs
    else g :: groupInsert gs pos c

/-- The own property names of `Object.prototype`: reading `acc[position]` for
one of these on a plain-object accumulator yields the inherited (truthy)
member instead of `undefined`. -/
def protoProps : List String :=
  ["constructor", "hasOwnProperty", "isPrototypeOf", "propertyIsEnumerable",
   "toLocaleString", "toString", "valueOf", "__defineGetter__", "__defineSetter__",
   "__lookupGetter__", "__lookupSetter__", "__proto__"]

/-- The model's rendering of the TypeError thrown when the grouping pushes
onto `acc[position].candidates` for a position that named an inherited
prototype member (the engine's own message text varies). -/
def protoGetTypeError : String := "TypeError: candidates is not defined on inherited member"

/-- Numeric value of a decimal digit character. -/
def charDigit (ch : Char) : Nat := ch.toNat - 48

/-- Value of a string of decimal digit characters. -/
def parseDec (l : List Char) : Nat :=
  l.foldl (fun acc ch => acc * 10 + charDigit ch) 0

/-- Whether a character list is the canonical decimal form of a natural
number: nonempty, digits only, no leading zero except for "0" itself. -/
def isCanonicalIndexChars : List Char → Bool
  | [] => false
  | [ch] => ch.isDigit
  | ch :: rest => ch.isDigit && !(ch = '0') && rest.all Char.isDigit

/-- Whether a string key is an ECMAScript array index: the canonical decimal
form of an integer below 2^32 - 1.  `Object.values` enumerates such own
keys first, in ascending numeric order, before the remaining string keys
in creation order. -/
def isArrayIndex (k : String) : Bool :=
  isCanonicalIndexChars k.toList && parseDec k.toList < 4294967295

/-- One step of the grouping `reduce` in `fetchCandidates`, with JavaScript
property-lookup semantics.  `if (!acc[position])` reads through the
prototype chain: an existing own key is truthy, so the candidate is pushed
onto its group; an absent key that names an inherited `Object.prototype`
member also reads truthy, so no group is created and the subsequent
`acc[position].candidates.push(...)` throws a TypeError; only a genuinely
absent key reads `undefined` and creates a fresh group at the end. -/
def groupStep (acc : List CandidateGroup) (c : Candidate) :
    Except String (List CandidateGroup) :=
  if acc.any (fun g => g.position = candKey c) then
    Except.ok (groupInsert acc (candKey c) c)
  else if candKey c ∈ protoProps then
    Except.error protoGetTypeError
  else
    Except.ok (acc ++ [CandidateGroup.mk (candKey c) [c]])

/-- The grouping `reduce` of `fetchCandidates` over the flat candidate list:
a single left-to-right pass threading the accumulator record (embedded as
a creation-ordered list of groups), stopping at the first thrown
TypeError. -/
def groupReduce : List Candidate → List CandidateGroup →
    Except String (List CandidateGroup)
  | [], acc => Except.ok acc
  | c :: cs, acc =>
    match groupStep acc c with
    | Except.error e => Except.error e
    | Except.ok acc' => groupReduce cs acc'

/-- Insert a group into a list of array-index-keyed groups, keeping ascending
numeric key order. -/
def insertAsc (g : CandidateGroup) : List CandidateGroup → List CandidateGroup
  | [] => [g]
  | h :: t =>
    if parseDec g.position.toList < parseDec h.position.toList then g :: h :: t
    else h :: insertAsc g t

/-- Sort a list of array-index-keyed groups by ascending numeric key. -/
def sortAsc : List CandidateGroup → List CandidateGroup
  | [] => []
  | h :: t => insertAsc h (sortAsc t)

/-- `Object.values` enumeration order on the accumulator record: own
array-index keys first in ascending numeric order, then the remaining
string keys in creation order. -/
def objectValues (acc : List CandidateGroup) : List CandidateGroup :=
  sortAsc (acc.filter (fun g => isArrayIndex g.position)) ++
    acc.filter (fun g => !(isArrayIndex g.position))

/-- The grouping performed by `fetchCandidates`: the `reduce` pass followed by
`Object.values` on the resulting record, or the thrown TypeError. -/
def groupCandidates (data : List Candidate) : Except String (List CandidateGroup) :=
  match groupReduce data [] with
  | Except.error e => Except.error e
  | Except.ok acc => Except.ok (objectValues acc)

/-- Insert a position label into a list of labels, keeping the list unchanged
when the label is already present and appending it otherwise (first-seen
order). -/
def insertFS : List String → String → List String
  | [], p => [p]
  | q :: qs, p => if q = p then q :: qs else q :: insertFS qs p

/-- The distinct position keys of a candidate list in first-seen order. -/
def firstSeenPositions (data : List Candidate) : List String :=
  data.foldl (fun acc c => insertFS acc (candKey c)) []

/-- Write `m[k] = v` on a creation-ordered string-keyed record: overwrite in
place if the key exists, append otherwise (JavaScript object semantics for
string keys). -/
def setKey : List (String × CandidateId) → String → CandidateId →
    List (String × CandidateId)
  | [], k, v => [(k, v)]
  | (k', v') :: m, k, v =>
    if k' = k then (k, v) :: m else (k', v') :: setKey m k v

/-- Read `m[k]` on a creation-ordered string-keyed record. -/
def getKey : List (String × CandidateId) → String → Option CandidateId
  | [], _ => none
  | (k', v') :: m, k => if k' = k then some v' else getKey m k

/-- The external calls a handler awaits, in order.  `bioHardware`,
`bioEnrolled` and `bioChallenge` are the three queries of the biometric
service; `readToken` is the credential read; `netVote` and `netBatch` are
the two POSTs to `/api/vote`; `overlay` is the timed confirmation
animation; `storageClear` and `storageDelete` are the post-success
credential invalidation. -/
inductive ExtCall where
  | bioHardware
  | bioEnrolled
  | bioChallenge (prompt : String)
  | readToken
  | netVote (position : String) (candidateId : CandidateId) (token : Option String)
  | netBatch (votes : List (String × CandidateId)) (token : Option String)
  | overlay (message : String)
  | storageClear
  | storageDelete (key : String)
deriving DecidableEq

/-- Whether a call is one of the biometric-service queries. -/
def isBio : ExtCall → Bool
  | ExtCall.bioHardware => true
  | ExtCall.bioEnrolled => true
  | ExtCall.bioChallenge _ => true
  | _ => false

/-- Whether a call is the biometric challenge itself. -/
def isChallenge : ExtCall → Bool
  | ExtCall.bioChallenge _ => true
  | _ => false

/-- Whether a call is a network request. -/
def isNetwork : ExtCall → Bool
  | ExtCall.netVote _ _ _ => true
  | ExtCall.netBatch _ _ => true
  | _ => false

/-- Whether a call touches the credential storage (clear or delete). -/
def isStorage : ExtCall → Bool
  | ExtCall.storageClear => true
  | ExtCall.storageDelete _ => true
  | _ => false

/-- `true` when the trace contains a biometric challenge. -/
def hasChallenge (cs : List (ExtCall × Bool)) : Bool :=
  cs.any (fun c => isChallenge c.1)

/-- `true` when the trace contains a network request. -/
def hasNetworkCall (cs : List (ExtCall × Bool)) : Bool :=
  cs.any (fun c => isNetwork c.1)

/-- `true` when the trace contains a storage operation. -/
def hasStorageCall (cs : List (ExtCall × Bool)) : Bool :=
  cs.any (fun c => isStorage c.1)

/-- The alerts the two handlers can raise. -/
inductive AlertMsg where
  | noSelection
  | voteFailed (msg : String)
  | noVotes
  | submitFailed (msg : String)
deriving DecidableEq

/-- Fixed message thrown when biometric hardware or enrollment is missing. -/
def unavailableMsg : String := "Fingerprint or Face ID not available on this device."

/-- Fixed message thrown when the biometric challenge does not succeed. -/
def verifyFailMsg : String := "Biometric verification was unsuccessful."

/-- Prompt text of the per-category vote challenge. -/
def votePrompt : String := "Authenticate to cast your vote"

/-- Prompt text of the final-submit challenge. -/
def finalPrompt : String := "Authenticate to submit your votes"

/-- Fallback message when a vote response carries no error text. -/
def voteFallbackMsg : String := "Vote submission failed."

/-- Fallback message when a batch response carries no error text. -/
def finalFallbackMsg : String := "Failed to submit votes"

/-- Overlay text after a recorded per-category vote. -/
def voteOverlayMsg : String := "Vote Recorded!"

/-- Overlay text after a successful batch submission. -/
def finalOverlayMsg : String := "All Votes Submitted!"

/-- Key of the credential in the secure store. -/
def jwtKey : String := "jwt_token"

/-- Outcomes of the external services consumed during one handler run:
biometric hardware presence, enrollment, challenge success, network
success, the error text of a failed response, and the outcomes of the two
storage-clearing operations. -/
structure Oracle where
  compatible : Bool
  enrolled : Bool
  challengeOk : Bool
  netOk : Bool
  netErrText : String
  clearOk : Bool
  deleteOk : Bool
deriving DecidableEq

/-- The biometric gate succeeds exactly when hardware, enrollment and the
challenge all pass. -/
def authOkOf (o : Oracle) : Bool := o.compatible && o.enrolled && o.challengeOk

/-- Embedding of `authenticateWithBiometrics`: both capability queries are
awaited, then absence of either throws the fixed unavailable message; a
single challenge with the given prompt is requested otherwise, throwing
the verification-failure message when it does not succeed.  Returns the
thrown message or success, together with the biometric calls made. -/
def authenticateWithBiometrics (compatible enrolled challengeOk : Bool)
    (prompt : String) : Except String Unit × List ExtCall :=
  if !compatible || !enrolled then
    (Except.error unavailableMsg, [ExtCall.bioHardware, ExtCall.bioEnrolled])
  else if challengeOk then
    (Except.ok (), [ExtCall.bioHardware, ExtCall.bioEnrolled, ExtCall.bioChallenge prompt])
  else
    (Except.error verifyFailMsg,
      [ExtCall.bioHardware, ExtCall.bioEnrolled, ExtCall.bioChallenge prompt])

/-- The mutable session state of `VoteScreen`: the loaded category list, the
cursor, the selections record, the busy flag, the review-mode flag, the
two credential stores (secure store `jwt_token` and the async-storage
cache `token`), and whether `router.replace` navigated back to the entry
point. -/
structure SessionState where
  candidatesData : List CandidateGroup
  currentIndex : Nat
  selectedVotes : List (String × CandidateId)
  isSubmitting : Bool
  showSummary : Bool
  jwtToken : Option String
  cacheToken : Option String
  navigatedHome : Bool
deriving DecidableEq

/-- Embedding of `getStoredToken`: the secure-store value is returned when
truthy, otherwise the cache value is returned. -/
def getStoredToken (s : SessionState) : Option String :=
  match s.jwtToken with
  | some t => if t = "" then s.cacheToken else some t
  | none => s.cacheToken

/-- The token attached as an authorization header: the stored token when
truthy, nothing otherwise (`...(token ? { Authorization: ... } : {})`). -/
def attachedToken (s : SessionState) : Option String :=
  match getStoredToken s with
  | some t => if t = "" then none else some t
  | none => none

/-- `isLastCategory` of the source: `currentIndex === totalCategories - 1`
over JavaScript numbers, hence integer arithmetic. -/
def isLastCategory (s : SessionState) : Bool :=
  (s.currentIndex : Int) = (s.candidatesData.length : Int) - 1

/-- The `disabled` expression of the vote button for the current category:
`!selectedVotes[currentCategory.position] || isSubmitting`. -/
def voteButtonDisabled (s : SessionState) (cat : CandidateGroup) : Bool :=
  !(truthyOpt (getKey s.selectedVotes cat.position)) || s.isSubmitting

/-- The result of one complete handler run: the state when the handler has
fully resolved, the external calls awaited in order (each paired with the
value of the busy flag at the moment of the call), and the alert raised,
if any. -/
structure RunResult where
  state : SessionState
  calls : List (ExtCall × Bool)
  alert : Option AlertMsg
deriving DecidableEq

/-- Embedding of `handleVote`.  An absent current category returns silently;
a falsy selection raises the no-selection alert before the `try` block
(leaving the busy flag untouched); otherwise the biometric gate runs
first (before `setIsSubmitting(true)`), then the token read and the
single-vote POST run with the busy flag set, a failed response raises the
vote-failed alert, and a successful one shows the overlay and then either
advances the cursor or, on the last category, enters review mode.  The
`finally` clause resets the busy flag on every path that entered `try`. -/
def handleVote (s : SessionState) (o : Oracle) : RunResult :=
  match s.candidatesData[s.currentIndex]? with
  | none => ⟨s, [], none⟩
  | some cat =>
    match getKey s.selectedVotes cat.position with
    | none => ⟨s, [], some AlertMsg.noSelection⟩
    | some cid =>
      if truthy cid = false then ⟨s, [], some AlertMsg.noSelection⟩
      else
        match authenticateWithBiometrics o.compatible o.enrolled o.challengeOk votePrompt with
        | (Except.error m, bioCalls) =>
          ⟨{ s with isSubmitting := false }, bioCalls.map (fun c => (c, s.isSubmitting)),
            some (AlertMsg.voteFailed m)⟩
        | (Except.ok _, bioCalls) =>
          if o.netOk then
            ⟨if isLastCategory s then { s with showSummary := true, isSubmitting := false }
              else { s with currentIndex := s.currentIndex + 1, isSubmitting := false },
              bioCalls.map (fun c => (c, s.isSubmitting)) ++
                [(ExtCall.readToken, true),
                 (ExtCall.netVote cat.position cid (attachedToken s), true),
                 (ExtCall.overlay voteOverlayMsg, true)],
              none⟩
          else
            ⟨{ s with isSubmitting := false },
              bioCalls.map (fun c => (c, s.isSubmitting)) ++
                [(ExtCall.readToken, true),
                 (ExtCall.netVote cat.position cid (attachedToken s), true)],
              some (AlertMsg.voteFailed
                (if o.netErrText = "" then voteFallbackMsg else o.netErrText))⟩

/-- Embedding of `handleSelect`: record the chosen identifier under the
current category's position (no-op when no current category exists). -/
def handleSelect (s : SessionState) (id : CandidateId) : SessionState :=
  match s.candidatesData[s.currentIndex]? with
  | none => s
  | some cat => { s with selectedVotes := setKey s.selectedVotes cat.position id }

/-- Embedding of `handleFinalSubmit`.  The biometric gate runs first; only
then is the selections record flattened (`Object.entries`) and, when
empty, the no-votes alert raised with no network call.  A non-empty
payload is POSTed with the busy flag set; a failed response raises the
submission-failed alert; a successful one shows the overlay, attempts
`AsyncStorage.clear()` and then `SecureStore.deleteItemAsync('jwt_token')`
(a throw in either skips the rest of the clearing and is only logged),
and in all success cases clears the selections and navigates back to the
entry point. -/
def handleFinalSubmit (s : SessionState) (o : Oracle) : RunResult :=
  match authenticateWithBiometrics o.compatible o.enrolled o.challengeOk finalPrompt with
  | (Except.error m, bioCalls) =>
    ⟨{ s with isSubmitting := false }, bioCalls.map (fun c => (c, s.isSubmitting)),
      some (AlertMsg.submitFailed m)⟩
  | (Except.ok _, bioCalls) =>
    if s.selectedVotes.length = 0 then
      ⟨{ s with isSubmitting := false }, bioCalls.map (fun c => (c, s.isSubmitting)),
        some AlertMsg.noVotes⟩
    else
      if o.netOk then
        if o.clearOk then
          if o.deleteOk then
            ⟨{ s with jwtToken := none, cacheToken := none, selectedVotes := [],
                      navigatedHome := true, isSubmitting := false },
              bioCalls.map (fun c => (c, s.isSubmitting)) ++
                [(ExtCall.readToken, true),
                 (ExtCall.netBatch s.selectedVotes (attachedToken s), true),
                 (ExtCall.overlay finalOverlayMsg, true),
                 (ExtCall.storageClear, true), (ExtCall.storageDelete jwtKey, true)],
              none⟩
          else
            ⟨{ s with cacheToken := none, selectedVotes := [],
                      navigatedHome := true, isSubmitting := false },
              bioCalls.map (fun c => (c, s.isSubmitting)) ++
                [(ExtCall.readToken, true),
                 (ExtCall.netBatch s.selectedVotes (attachedToken s), true),
                 (ExtCall.overlay finalOverlayMsg, true),
                 (ExtCall.storageClear, true), (ExtCall.storageDelete jwtKey, true)],
              none⟩
        else
          ⟨{ s with selectedVotes := [], navigatedHome := true, isSubmitting := false },
            bioCalls.map (fun c => (c, s.isSubmitting)) ++
              [(ExtCall.readToken, true),
               (ExtCall.netBatch s.selectedVotes (attachedToken s), true),
               (ExtCall.overlay finalOverlayMsg, true), (ExtCall.storageClear, true)],
            none⟩
      else
        ⟨{ s with isSubmitting := false },
          bioCalls.map (fun c => (c, s.isSubmitting)) ++
            [(ExtCall.readToken, true),
             (ExtCall.netBatch s.selectedVotes (attachedToken s), true)],
          some (AlertMsg.submitFailed
            (if o.netErrText = "" then finalFallbackMsg else o.netErrText))⟩

/-- The interactive entry points of the session: selecting a candidate,
pressing the vote button, pressing the final-submit button. -/
inductive Action where
  | select (id : CandidateId)
  | vote (o : Oracle)
  | finalSubmit (o : Oracle)

/-- One interaction step of the session.  The render function gates the entry
points: the candidate cards and the vote button exist only outside the
summary screen, the final-submit button only on it. -/
def step (s : SessionState) : Action → SessionState
  | Action.select id => if s.showSummary then s else handleSelect s id
  | Action.vote o => if s.showSummary then s else (handleVote s o).state
  | Action.finalSubmit o => if s.showSummary then (handleFinalSubmit s o).state else s

/-- The session state right after a successful catalog load: cursor at 0,
empty selections, not busy, not in review mode. -/
def initState (groups : List CandidateGroup) (jwt cache : Option String) : SessionState :=
  { candidatesData := groups, currentIndex := 0, selectedVotes := [],
    isSubmitting := false, showSummary := false,
    jwtToken := jwt, cacheToken := cache, navigatedHome := false }

/-- States reachable by interaction from a freshly loaded session. -/
inductive Reachable : SessionState → Prop where
  | init (groups : List CandidateGroup) (jwt cache : Option String) :
      Reachable (initState groups jwt cache)
  | next (s : SessionState) (a : Action) : Reachable s → Reachable (step s a)

/-- A sample candidate for the "President" position. -/
def cand1 : Candidate := ⟨CandidateId.num 1, "A", "", none, some "President"⟩

/-- A one-category ballot. -/
def g0 : CandidateGroup := ⟨"President", [cand1]⟩

/-- An oracle on which every external service succeeds. -/
def goodOracle : Oracle := ⟨true, true, true, true, "", true, true⟩

/-- An oracle on which the biometric challenge fails. -/
def authFailOracle : Oracle := ⟨true, true, false, true, "", true, true⟩

/-- A freshly loaded one-category session after selecting candidate 1. -/
def s2 : SessionState := step (initState [g0] none none) (Action.select (CandidateId.num 1))

/-- The session `s2` after a fully successful vote on its only category. -/
def s4 : SessionState := step s2 (Action.vote goodOracle)

/-- A review-mode state whose selections record is empty. -/
def cexS : SessionState :=
  { candidatesData := [g0], currentIndex := 0, selectedVotes := [],
    isSubmitting := false, showSummary := true,
    jwtToken := none, cacheToken := none, navigatedHome := false }

/-- A state whose recorded selection for the current category is the falsy
identifier `0`. -/
def sZero : SessionState :=
  { candidatesData := [g0], currentIndex := 0,
    selectedVotes := [("President", CandidateId.num 0)],
    isSubmitting := false, showSummary := false,
    jwtToken := none, cacheToken := none, navigatedHome := false }

/-- Candidate A of Scenario A in the spec. -/
def cA : Candidate := ⟨CandidateId.num 1, "A", "", none, some "President"⟩

/-- Candidate B of Scenario A in the spec. -/
def cB : Candidate := ⟨CandidateId.num 2, "B", "", none, some "President"⟩

/-- Candidate C of Scenario A in the spec. -/
def cC : Candidate := ⟨CandidateId.num 3, "C", "", none, some "Secretary"⟩

/-- The candidate list of Scenario A in the spec. -/
def scenarioA : List Candidate := [cA, cB, cC]

/-- A candidate whose position is the array-index-like key "1". -/
def cNum : Candidate := ⟨CandidateId.num 7, "N", "", none, some "1"⟩

/-- A candidate whose position is the plain key "B". -/
def cPlain : Candidate := ⟨CandidateId.num 8, "M", "", none, some "B"⟩

/-- A candidate list on which the grouped output is not in first-seen order. -/
def cexC3 : List Candidate := [cPlain, cNum]

/-- The invariant carried through the grouping fold: distinct keys, every
processed candidate's key has a group, and each group's candidate list is
the filter of the processed prefix by its key. -/
def GroupsInv (acc : List CandidateGroup) (pre : List Candidate) : Prop :=
  (acc.map (fun g => g.position)).Nodup ∧
  (∀ c ∈ pre, candKey c ∈ acc.map (fun g => g.position)) ∧
  (∀ g ∈ acc, g.candidates = pre.filter (fun c' => candKey c' == g.position))

/-- The conditions under which a vote-handler run is a confirmed vote: the
biometric gate and the network both succeed on a truthy recorded selection
for an existing current category. -/
def confirmedVoteAt (s : SessionState) (o : Oracle) : Prop :=
  authOkOf o = true ∧ o.netOk = true ∧
    ∃ cat, s.candidatesData[s.currentIndex]? = some cat ∧
      ∃ cid, getKey s.selectedVotes cat.position = some cid ∧ truthy cid = true

/-- Reading a key just written returns the written value. -/
lemma getKey_setKey_self (m : List (String × CandidateId)) (k : String) (v : CandidateId) :
    getKey (setKey m k v) k = some v := by
  induction m with
  | nil => simp [setKey, getKey]
  | cons p m ih =>
    obtain ⟨k', v'⟩ := p
    simp only [setKey]
    by_cases h : k' = k
    · rw [if_pos h]; simp [getKey]
    · rw [if_neg h]; simp [getKey, h, ih]

/-- Writing a key never empties the record. -/
lemma setKey_ne_nil (m : List (String × CandidateId)) (k : String) (v : CandidateId) :
    setKey m k v ≠ [] := by
  cases m with
  | nil => simp [setKey]
  | cons p m => obtain ⟨k', v'⟩ := p; simp only [setKey]; split <;> simp

/-- `groupInsert` extends the key list exactly as first-seen insertion does. -/
lemma groupInsert_positions (acc : List CandidateGroup) (p : String) (c : Candidate) :
    (groupInsert acc p c).map (fun g => g.position) =
      insertFS (acc.map (fun g => g.position)) p := by
  induction acc with
  | nil => rfl
  | cons g gs ih =>
    simp only [groupInsert, insertFS, List.map_cons]
    by_cases h : g.position = p
    · simp [h]
    · simp [h, ih]

/-- Membership in a first-seen insertion. -/
lemma mem_insertFS (l : List String) (p q : String) :
    q ∈ insertFS l p ↔ q ∈ l ∨ q = p := by
  induction l with
  | nil => simp [insertFS]
  | cons r rs ih =>
    simp only [insertFS]
    by_cases h : r = p
    · rw [if_pos h]; subst h; simp only [List.mem_cons]; tauto
    · rw [if_neg h]; simp only [List.mem_cons, ih]; tauto

/-- First-seen insertion preserves distinctness of the key list. -/
lemma insertFS_nodup (l : List String) (p : String) (h : l.Nodup) :
    (insertFS l p).Nodup := by
  induction l with
  | nil => simp [insertFS]
  | cons r rs ih =>
    simp only [insertFS]
    by_cases hr : r = p
    · rw [if_pos hr]; exact h
    · rw [if_neg hr]
      rcases List.nodup_cons.mp h with ⟨hrm, hnd⟩
      refine List.nodup_cons.mpr ⟨?_, ih hnd⟩
      rw [mem_insertFS]
      rintro (hin | rfl)
      · exact hrm hin
      · exact hr rfl

/-- After inserting candidate `c`, every group's candidate list is exactly the
filter of the processed prefix extended by `c`. -/
lemma groupInsert_filter (acc : List CandidateGroup) (pre : List Candidate) (c : Candidate)
    (hnd : (acc.map (fun g => g.position)).Nodup)
    (hnew : candKey c ∉ acc.map (fun g => g.position) →
        pre.filter (fun c' => candKey c' == candKey c) = [])
    (hch : ∀ g ∈ acc, g.candidates = pre.filter (fun c' => candKey c' == g.position)) :
    ∀ g' ∈ groupInsert acc (candKey c) c,
      g'.candidates = (pre ++ [c]).filter (fun c' => candKey c' == g'.position) := by
  induction acc with
  | nil =>
    intro g' hg'
    simp only [groupInsert, List.mem_singleton] at hg'
    subst hg'
    simp only [List.filter_append]
    rw [hnew (by simp)]
    simp
  | cons g gs ih =>
    intro g' hg'
    simp only [groupInsert] at hg'
    by_cases hpos : g.position = candKey c
    · rw [if_pos hpos] at hg'
      rcases List.mem_cons.mp hg' with rfl | hmem
      · simp only [List.filter_append]
        rw [← hch g (List.mem_cons_self _ _)]
        simp [hpos]
      · have hgpos : g'.position ∈ gs.map (fun g => g.position) :=
          List.mem_map_of_mem _ hmem
        have hne : g.position ∉ gs.map (fun g => g.position) :=
          (List.nodup_cons.mp (by simpa using hnd)).1
        have hkey : ¬(candKey c = g'.position) := fun h => by
          rw [← hpos] at h; rw [h] at hne; exact hne hgpos
        rw [List.filter_append]
        have hone : List.filter (fun c' => candKey c' == g'.position) [c] = [] := by
          simp [hkey]
        rw [hone, List.append_nil]
        exact hch g' (List.mem_cons_of_mem _ hmem)
    · rw [if_neg hpos] at hg'
      rcases List.mem_cons.mp hg' with rfl | hmem
      · rw [List.filter_append]
        have hone : List.filter (fun c' => candKey c' == g'.position) [c] = [] := by
          simp; intro h; exact hpos h.symm
        rw [hone, List.append_nil]
        exact hch g' (List.mem_cons_self _ _)
      · refine ih ?_ ?_ ?_ g' hmem
        · exact (List.nodup_cons.mp (by simpa using hnd)).2
        · intro hnotin
          refine hnew ?_
          simp only [List.map_cons, List.mem_cons]
          rintro (h | h)
          · exact hpos h.symm
          · exact hnotin h
        · intro g hg; exact hch g (List.mem_cons_of_mem _ hg)

/-- One grouping step preserves the invariant. -/
lemma groupInsert_inv (acc : List CandidateGroup) (pre : List Candidate) (c : Candidate)
    (h : GroupsInv acc pre) : GroupsInv (groupInsert acc (candKey c) c) (pre ++ [c]) := by
  obtain ⟨hnd, hcov, hch⟩ := h
  refine ⟨?_, ?_, ?_⟩
  · rw [groupInsert_positions]; exact insertFS_nodup _ _ hnd
  · intro c' hc'
    rw [groupInsert_positions, mem_insertFS]
    rcases List.mem_append.mp hc' with hin | hin
    · exact Or.inl (hcov c' hin)
    · rcases List.mem_singleton.mp hin with rfl
      exact Or.inr rfl
  · refine groupInsert_filter acc pre c hnd ?_ hch
    intro hnotin
    rw [List.filter_eq_nil_iff]
    intro x hx hbeq
    exact hnotin (by rw [← (by simpa using hbeq : candKey x = candKey c)]; exact hcov x hx)

/-- The grouping fold preserves the invariant over any suffix. -/
lemma groupFold_inv (data : List Candidate) (acc : List CandidateGroup) (pre : List Candidate)
    (h : GroupsInv acc pre) :
    GroupsInv (data.foldl (fun a c => groupInsert a (candKey c) c) acc) (pre ++ data) := by
  induction data generalizing acc pre with
  | nil => simpa using h
  | cons c data ih =>
    simp only [List.foldl_cons]
    have hstep := ih (groupInsert acc (candKey c) c) (pre ++ [c]) (groupInsert_inv acc pre c h)
    simpa [List.append_assoc] using hstep

/-- The group keys produced by the fold are the first-seen keys. -/
lemma groupFold_positions (data : List Candidate) (acc : List CandidateGroup) :
    (data.foldl (fun a c => groupInsert a (candKey c) c) acc).map (fun g => g.position)
      = data.foldl (fun a c => insertFS a (candKey c)) (acc.map (fun g => g.position)) := by
  induction data generalizing acc with
  | nil => rfl
  | cons c data ih =>
    simp only [List.foldl_cons]
    rw [ih, groupInsert_positions]

/-- Pushing a candidate under a key absent from the record appends a fresh
group at the end. -/
lemma groupInsert_of_not_mem (acc : List CandidateGroup) (pos : String) (c : Candidate)
    (h : acc.any (fun g => g.position = pos) = false) :
    groupInsert acc pos c = acc ++ [CandidateGroup.mk pos [c]] := by
  induction acc with
  | nil => rfl
  | cons g gs ih =>
    simp only [List.any_cons, Bool.or_eq_false_iff, decide_eq_false_iff_not] at h
    simp only [groupInsert]
    rw [if_neg h.1, ih h.2]
    rfl

/-- Away from inherited prototype member names, one grouping step is exactly
the record push-or-create. -/
lemma groupStep_eq (acc : List CandidateGroup) (c : Candidate)
    (h : candKey c ∉ protoProps) :
    groupStep acc c = Except.ok (groupInsert acc (candKey c) c) := by
  unfold groupStep
  by_cases hmem : acc.any (fun g => g.position = candKey c) = true
  · rw [if_pos hmem]
  · rw [if_neg hmem, if_neg h,
      groupInsert_of_not_mem acc (candKey c) c (by simpa using hmem)]

/-- Away from inherited prototype member names, the grouping reduce never
throws and equals the plain record fold. -/
lemma groupReduce_eq (data : List Candidate) (acc : List CandidateGroup)
    (h : ∀ c ∈ data, candKey c ∉ protoProps) :
    groupReduce data acc =
      Except.ok (data.foldl (fun a c => groupInsert a (candKey c) c) acc) := by
  induction data generalizing acc with
  | nil => rfl
  | cons c cs ih =>
    simp only [groupReduce, List.foldl_cons]
    rw [groupStep_eq acc c (h c (List.mem_cons_self _ _))]
    exact ih _ (fun c' hc' => h c' (List.mem_cons_of_mem _ hc'))

/-- With no array-index-like key in the record, `Object.values` enumeration is
plain creation order. -/
lemma objectValues_of_no_index (acc : List CandidateGroup)
    (h : ∀ g ∈ acc, isArrayIndex g.position = false) :
    objectValues acc = acc := by
  unfold objectValues
  rw [List.filter_eq_nil_iff.mpr (by intro g hg; simp [h g hg]),
    List.filter_eq_self.mpr (by intro g hg; simp [h g hg])]
  rfl

/-- Every key produced by the first-seen fold comes from the seed or from some
candidate of the list. -/
lemma firstSeen_subset (data : List Candidate) (acc : List String) (p : String) :
    p ∈ data.foldl (fun a c => insertFS a (candKey c)) acc →
      p ∈ acc ∨ ∃ c ∈ data, candKey c = p := by
  induction data generalizing acc with
  | nil => intro h; exact Or.inl h
  | cons c cs ih =>
    intro h
    rcases ih _ h with hin | ⟨c', hc', rfl⟩
    · rw [mem_insertFS] at hin
      rcases hin with hin | rfl
      · exact Or.inl hin
      · exact Or.inr ⟨c, List.mem_cons_self _ _, rfl⟩
    · exact Or.inr ⟨c', List.mem_cons_of_mem _ hc', rfl⟩

/-- Counterexample for C3 as stated: on the list `cexC3` (positions seen in
the order "B", "1") the grouping succeeds but `Object.values` enumerates
the array-index-like key "1" first, so the produced group order is not the
first-seen position order of the input. -/
theorem C3_counterexample :
    firstSeenPositions cexC3 = ["B", "1"] ∧
    groupCandidates cexC3 =
      Except.ok [CandidateGroup.mk "1" [cNum], CandidateGroup.mk "B" [cPlain]] ∧
    [CandidateGroup.mk "1" [cNum], CandidateGroup.mk "B" [cPlain]].map
        (fun g => g.position) ≠ firstSeenPositions cexC3 :=
  ⟨rfl, rfl, by decide⟩

/-- Claim C3 as amended: for every candidate list none of whose (defaulted)
position keys is an array-index-like string or the name of an inherited
Object-prototype property, the grouping succeeds, its keys are exactly the
first-seen distinct position keys in order and pairwise distinct, and each
group holds exactly the input candidates bearing its key, in input order —
so each candidate lands in exactly one group keyed by its position.  (On
other lists the code deviates: array-index-like keys are enumerated first
in ascending numeric order, and a key naming an inherited prototype member
makes the grouping throw, failing the load.) -/
theorem C3_theorem (data : List Candidate)
    (h : ∀ c ∈ data, isArrayIndex (candKey c) = false ∧ candKey c ∉ protoProps) :
    ∃ gs, groupCandidates data = Except.ok gs ∧
      gs.map (fun g => g.position) = firstSeenPositions data ∧
      (gs.map (fun g => g.position)).Nodup ∧
      ∀ g ∈ gs, g.candidates = data.filter (fun c => candKey c == g.position) := by
  have hfold := groupReduce_eq data [] (fun c hc => (h c hc).2)
  set acc := data.foldl (fun a c => groupInsert a (candKey c) c) [] with hacc
  have hpos : acc.map (fun g => g.position) = firstSeenPositions data := by
    have hgen := groupFold_positions data []
    simpa [firstSeenPositions, hacc] using hgen
  have hinv : GroupsInv acc data := by
    have hbase := groupFold_inv data [] [] ⟨by simp, by simp, by simp⟩
    simpa [hacc] using hbase
  have hnoidx : ∀ g ∈ acc, isArrayIndex g.position = false := by
    intro g hg
    have hmem : g.position ∈ firstSeenPositions data := by
      rw [← hpos]; exact List.mem_map_of_mem _ hg
    rcases firstSeen_subset data [] g.position (by simpa [firstSeenPositions] using hmem)
        with hin | ⟨c, hc, heq⟩
    · exact absurd hin (List.not_mem_nil _)
    · rw [← heq]; exact (h c hc).1
  refine ⟨acc, ?_, hpos, hinv.1, hinv.2.2⟩
  unfold groupCandidates
  rw [hfold]
  exact congrArg Except.ok (objectValues_of_no_index acc hnoidx)

/-- Witness for C3 at Scenario A of the spec: the grouping succeeds with the
two groups in first-seen order, President before Secretary. -/
theorem C3_witness :
    groupCandidates scenarioA =
      Except.ok [CandidateGroup.mk "President" [cA, cB],
        CandidateGroup.mk "Secretary" [cC]] ∧
    ∃ gs, groupCandidates scenarioA = Except.ok gs ∧
      gs.map (fun g => g.position) = firstSeenPositions scenarioA := by
  refine ⟨rfl, ?_⟩
  obtain ⟨gs, h1, h2, _, _⟩ := C3_theorem scenarioA (by decide)
  exact ⟨gs, h1, h2⟩


end VoteApp

namespace VoteApp

/-- Claim C7: with a current category present and no selection recorded for
it, the vote handler is a no-op on the session state, raises the
no-selection notice, and performs no external call at all. -/
theorem C7_theorem (s : SessionState) (o : Oracle) (cat : CandidateGroup)
    (hcat : s.candidatesData[s.currentIndex]? = some cat)
    (hsel : getKey s.selectedVotes cat.position = none) :
    (handleVote s o).state = s ∧ (handleVote s o).alert = some AlertMsg.noSelection ∧
    (handleVote s o).calls = [] := by
  simp [handleVote, hcat, hsel]

/-- Witness for C7 on a freshly loaded one-category session. -/
theorem C7_witness :
    (handleVote (initState [g0] none none) goodOracle).state = initState [g0] none none :=
  (C7_theorem (initState [g0] none none) goodOracle g0 rfl rfl).1

/-- Claim C9: the biometric gate fails with the fixed unavailable message and
requests no challenge when hardware or enrollment is missing; otherwise it
requests exactly one challenge with the given prompt, failing with the
verification-failure message on a non-success result and succeeding
otherwise. -/
theorem C9_theorem (compatible enrolled challengeOk : Bool) (prompt : String) :
    ((compatible && enrolled) = false →
      (authenticateWithBiometrics compatible enrolled challengeOk prompt).1
          = Except.error unavailableMsg ∧
      ((authenticateWithBiometrics compatible enrolled challengeOk prompt).2.filter
          isChallenge) = []) ∧
    ((compatible && enrolled) = true →
      ((authenticateWithBiometrics compatible enrolled challengeOk prompt).2.filter
          isChallenge) = [ExtCall.bioChallenge prompt] ∧
      (challengeOk = true →
        (authenticateWithBiometrics compatible enrolled challengeOk prompt).1
          = Except.ok ()) ∧
      (challengeOk = false →
        (authenticateWithBiometrics compatible enrolled challengeOk prompt).1
          = Except.error verifyFailMsg)) := by
  cases compatible <;> cases enrolled <;> cases challengeOk <;>
    simp [authenticateWithBiometrics, isChallenge]

/-- Witness for C9: with hardware and enrollment present, exactly one
challenge with the vote prompt is requested. -/
theorem C9_witness :
    (authenticateWithBiometrics true true true votePrompt).2.filter isChallenge
      = [ExtCall.bioChallenge votePrompt] :=
  ((C9_theorem true true true votePrompt).2 rfl).1

/-- Claim C10: a falsy recorded identifier (the number 0 or the empty string)
is treated exactly like a missing selection: the vote button is disabled,
the handler exits with the no-selection notice making no external call,
yet any identifier, falsy ones included, can be recorded by selection. -/
theorem C10_theorem (s : SessionState) (o : Oracle) (cat : CandidateGroup) (cid : CandidateId)
    (hcat : s.candidatesData[s.currentIndex]? = some cat)
    (hsel : getKey s.selectedVotes cat.position = some cid)
    (hfalsy : truthy cid = false) :
    (handleVote s o).state = s ∧ (handleVote s o).alert = some AlertMsg.noSelection ∧
    (handleVote s o).calls = [] ∧ voteButtonDisabled s cat = true ∧
    ∀ id, getKey (handleSelect s id).selectedVotes cat.position = some id := by
  refine ⟨?_, ?_, ?_, ?_, ?_⟩
  · simp [handleVote, hcat, hsel, hfalsy]
  · simp [handleVote, hcat, hsel, hfalsy]
  · simp [handleVote, hcat, hsel, hfalsy]
  · simp [voteButtonDisabled, hsel, truthyOpt, hfalsy]
  · intro id; simp [handleSelect, hcat, getKey_setKey_self]

/-- Witness for C10 on a state whose recorded selection is the identifier 0. -/
theorem C10_witness :
    (handleVote sZero goodOracle).state = sZero ∧
    (handleVote sZero goodOracle).calls = [] :=
  by
    have h := C10_theorem sZero goodOracle g0 (CandidateId.num 0) rfl rfl rfl
    exact ⟨h.1, h.2.2.1⟩

/-- Claim C5: a per-category vote attempt on which the biometric challenge
fails or the network submission is a non-success reverts: the state is
unchanged apart from the busy flag being reset, the pre-existing selection
for the current category is still recorded, and a vote-failed message is
surfaced. -/
theorem C5_theorem (s : SessionState) (o : Oracle) (cat : CandidateGroup) (cid : CandidateId)
    (hcat : s.candidatesData[s.currentIndex]? = some cat)
    (hsel : getKey s.selectedVotes cat.position = some cid)
    (htr : truthy cid = true)
    (hfail : authOkOf o = false ∨ o.netOk = false) :
    (handleVote s o).state = { s with isSubmitting := false } ∧
    getKey (handleVote s o).state.selectedVotes cat.position = some cid ∧
    ∃ m, (handleVote s o).alert = some (AlertMsg.voteFailed m) := by
  obtain ⟨comp, enr, ch, net, errt, clr, del⟩ := o
  simp only [authOkOf] at hfail
  cases comp <;> cases enr <;> cases ch <;> cases net <;>
    simp_all [handleVote, authenticateWithBiometrics]

/-- Witness for C5: a failed challenge on `s2` leaves the cursor and the
recorded selection in place. -/
theorem C5_witness :
    getKey (handleVote s2 authFailOracle).state.selectedVotes "President"
      = some (CandidateId.num 1) :=
  by
    have h := C5_theorem s2 authFailOracle g0 (CandidateId.num 1) rfl rfl rfl (Or.inl rfl)
    exact h.2.1


/-- Counterexample for C1 as stated: on a review-mode state with an empty
selections record and a fully successful oracle, the final-submit handler
does invoke the AuthGate biometric challenge before being blocked. -/
theorem C1_counterexample :
    cexS.selectedVotes = [] ∧
    hasChallenge (handleFinalSubmit cexS goodOracle).calls = true := by
  constructor
  · rfl
  · decide

/-- Claim C1 as amended: with an empty selections record the final submit is
still blocked locally with the no-votes notice and performs no network
call, leaving the state unchanged apart from the busy flag; but the
AuthGate biometric challenge is invoked first whenever hardware and
enrollment are present, and an AuthGate failure surfaces the
submission-failed message instead of the no-votes notice. -/
theorem C1_theorem (s : SessionState) (o : Oracle) (h : s.selectedVotes = []) :
    hasNetworkCall (handleFinalSubmit s o).calls = false ∧
    (handleFinalSubmit s o).state = { s with isSubmitting := false } ∧
    ((o.compatible && o.enrolled) = true →
      hasChallenge (handleFinalSubmit s o).calls = true) ∧
    (authOkOf o = true → (handleFinalSubmit s o).alert = some AlertMsg.noVotes) ∧
    (authOkOf o = false →
      ∃ m, (handleFinalSubmit s o).alert = some (AlertMsg.submitFailed m)) := by
  obtain ⟨comp, enr, ch, net, errt, clr, del⟩ := o
  cases comp <;> cases enr <;> cases ch <;>
    simp_all [handleFinalSubmit, authenticateWithBiometrics, authOkOf,
      hasNetworkCall, hasChallenge, isNetwork, isChallenge]

/-- Witness for C1 as amended: on `cexS` with every service succeeding, the
no-votes notice is raised. -/
theorem C1_witness :
    (handleFinalSubmit cexS goodOracle).alert = some AlertMsg.noVotes :=
  (C1_theorem cexS goodOracle rfl).2.2.2.1 rfl

/-- Counterexample for C2 as stated: `s2` is a reachable state with a truthy
selection, and the vote handler run from it awaits the biometric challenge
(the Authenticating phase) with the busy flag still false, so the claim
that the busy flag is set throughout Authenticating phases is false. -/
theorem C2_counterexample :
    Reachable s2 ∧
    (ExtCall.bioChallenge votePrompt, false) ∈ (handleVote s2 goodOracle).calls :=
  ⟨Reachable.next _ _ (Reachable.init [g0] none none), by decide⟩

/-- Every external call of a vote-handler run is either a biometric call at
the entry value of the busy flag, or a later call with the busy flag set. -/
lemma handleVote_calls_busy (s : SessionState) (o : Oracle) :
    ∀ c ∈ (handleVote s o).calls, (isBio c.1 = true ∧ c.2 = s.isSubmitting) ∨
      (isBio c.1 = false ∧ c.2 = true) := by
  obtain ⟨comp, enr, ch, net, errt, clr, del⟩ := o
  rcases hcat : s.candidatesData[s.currentIndex]? with _ | cat
  · simp [handleVote, hcat]
  · rcases hsel : getKey s.selectedVotes cat.position with _ | cid
    · simp [handleVote, hcat, hsel]
    · cases htr : truthy cid
      · simp [handleVote, hcat, hsel, htr]
      · cases comp <;> cases enr <;> cases ch <;> cases net <;>
          cases hl : isLastCategory s <;>
          simp [handleVote, hcat, hsel, htr, hl, authenticateWithBiometrics, isBio]

/-- Every external call of a final-submit run is either a biometric call at
the entry value of the busy flag, or a later call with the busy flag set. -/
lemma handleFinalSubmit_calls_busy (s : SessionState) (o : Oracle) :
    ∀ c ∈ (handleFinalSubmit s o).calls, (isBio c.1 = true ∧ c.2 = s.isSubmitting) ∨
      (isBio c.1 = false ∧ c.2 = true) := by
  obtain ⟨comp, enr, ch, net, errt, clr, del⟩ := o
  by_cases hlen : s.selectedVotes.length = 0 <;>
    cases comp <;> cases enr <;> cases ch <;> cases net <;> cases clr <;> cases del <;>
    simp [handleFinalSubmit, hlen, authenticateWithBiometrics, isBio]

/-- Claim C2 as amended: every non-biometric external moment of a handler run
(the token read, the network call, the confirmation overlay, the storage
clearing) happens with the busy flag set, while the biometric-phase calls
happen with the busy flag still at its value on entry, so only the
Submitting phase, overlay window included, is gated by the busy flag. -/
theorem C2_theorem (s : SessionState) (o : Oracle) :
    ((handleVote s o).calls.all (fun c => isBio c.1 || c.2)) = true ∧
    ((handleVote s o).calls.all (fun c => !(isBio c.1) || (c.2 == s.isSubmitting))) = true ∧
    ((handleFinalSubmit s o).calls.all (fun c => isBio c.1 || c.2)) = true ∧
    ((handleFinalSubmit s o).calls.all
        (fun c => !(isBio c.1) || (c.2 == s.isSubmitting))) = true := by
  refine ⟨?_, ?_, ?_, ?_⟩ <;> rw [List.all_eq_true] <;> intro c hc
  · rcases handleVote_calls_busy s o c hc with ⟨h1, h2⟩ | ⟨h1, h2⟩ <;> simp [h1, h2]
  · rcases handleVote_calls_busy s o c hc with ⟨h1, h2⟩ | ⟨h1, h2⟩ <;> simp [h1, h2]
  · rcases handleFinalSubmit_calls_busy s o c hc with ⟨h1, h2⟩ | ⟨h1, h2⟩ <;> simp [h1, h2]
  · rcases handleFinalSubmit_calls_busy s o c hc with ⟨h1, h2⟩ | ⟨h1, h2⟩ <;> simp [h1, h2]

/-- The vote handler never touches the category list, the selections record,
the credential stores or the navigation flag, never moves the cursor
backwards, and performs no storage call. -/
lemma handleVote_shape (s : SessionState) (o : Oracle) :
    (handleVote s o).state.candidatesData = s.candidatesData ∧
    (handleVote s o).state.selectedVotes = s.selectedVotes ∧
    (handleVote s o).state.jwtToken = s.jwtToken ∧
    (handleVote s o).state.cacheToken = s.cacheToken ∧
    (handleVote s o).state.navigatedHome = s.navigatedHome ∧
    s.currentIndex ≤ (handleVote s o).state.currentIndex ∧
    hasStorageCall (handleVote s o).calls = false := by
  obtain ⟨comp, enr, ch, net, errt, clr, del⟩ := o
  rcases hcat : s.candidatesData[s.currentIndex]? with _ | cat
  · simp [handleVote, hcat, hasStorageCall]
  · rcases hsel : getKey s.selectedVotes cat.position with _ | cid
    · simp [handleVote, hcat, hsel, hasStorageCall]
    · cases htr : truthy cid
      · simp [handleVote, hcat, hsel, htr, hasStorageCall]
      · cases comp <;> cases enr <;> cases ch <;> cases net <;>
          cases hl : isLastCategory s <;>
          simp [handleVote, hcat, hsel, htr, hl, authenticateWithBiometrics,
            hasStorageCall, isStorage]

/-- Case analysis of a vote-handler run as seen by the cursor and the
review-mode flag: either both are left as they were, or the full success
conditions held and the run either entered review mode on the last
category or advanced the cursor by exactly one otherwise. -/
lemma handleVote_cases (s : SessionState) (o : Oracle) :
    ((handleVote s o).state.currentIndex = s.currentIndex ∧
      (handleVote s o).state.showSummary = s.showSummary) ∨
    (authOkOf o = true ∧ o.netOk = true ∧
      (∃ cat, s.candidatesData[s.currentIndex]? = some cat ∧
        ∃ cid, getKey s.selectedVotes cat.position = some cid ∧ truthy cid = true) ∧
      ((isLastCategory s = true ∧
          (handleVote s o).state.currentIndex = s.currentIndex ∧
          (handleVote s o).state.showSummary = true) ∨
        (isLastCategory s = false ∧
          (handleVote s o).state.currentIndex = s.currentIndex + 1 ∧
          (handleVote s o).state.showSummary = s.showSummary))) := by
  obtain ⟨comp, enr, ch, net, errt, clr, del⟩ := o
  rcases hcat : s.candidatesData[s.currentIndex]? with _ | cat
  · left; simp [handleVote, hcat]
  · rcases hsel : getKey s.selectedVotes cat.position with _ | cid
    · left; simp [handleVote, hcat, hsel]
    · cases htr : truthy cid
      · left; simp [handleVote, hcat, hsel, htr]
      · by_cases hauth : comp = true ∧ enr = true ∧ ch = true ∧ net = true
        · obtain ⟨rfl, rfl, rfl, rfl⟩ := hauth
          right
          refine ⟨rfl, rfl, ⟨cat, rfl, cid, hsel, htr⟩, ?_⟩
          cases hl : isLastCategory s
          · right
            refine ⟨rfl, ?_, ?_⟩ <;>
              simp [handleVote, hcat, hsel, htr, hl, authenticateWithBiometrics]
          · left
            refine ⟨rfl, ?_, ?_⟩ <;>
              simp [handleVote, hcat, hsel, htr, hl, authenticateWithBiometrics]
        · left
          cases comp <;> cases enr <;> cases ch <;> cases net <;>
            simp_all [handleVote, hcat, hsel, htr, authenticateWithBiometrics]

/-- The final-submit handler never touches the category list, the cursor or
the review-mode flag. -/
lemma handleFinalSubmit_shape (s : SessionState) (o : Oracle) :
    (handleFinalSubmit s o).state.candidatesData = s.candidatesData ∧
    (handleFinalSubmit s o).state.currentIndex = s.currentIndex ∧
    (handleFinalSubmit s o).state.showSummary = s.showSummary := by
  obtain ⟨comp, enr, ch, net, errt, clr, del⟩ := o
  by_cases hlen : s.selectedVotes.length = 0 <;>
    cases comp <;> cases enr <;> cases ch <;> cases net <;> cases clr <;> cases del <;>
    simp [handleFinalSubmit, hlen, authenticateWithBiometrics]

/-- Case analysis of a final-submit run: either the selections, the credential
stores and the navigation flag are untouched, no storage call happens, and
the run was not a full success; or every success condition held, the
selections were cleared, navigation happened, and the storage was cleared
to the extent its own operations succeeded. -/
lemma handleFinalSubmit_cases (s : SessionState) (o : Oracle) :
    ((handleFinalSubmit s o).state.selectedVotes = s.selectedVotes ∧
      (handleFinalSubmit s o).state.jwtToken = s.jwtToken ∧
      (handleFinalSubmit s o).state.cacheToken = s.cacheToken ∧
      (handleFinalSubmit s o).state.navigatedHome = s.navigatedHome ∧
      hasStorageCall (handleFinalSubmit s o).calls = false ∧
      (authOkOf o = false ∨ o.netOk = false ∨ s.selectedVotes = [])) ∨
    (authOkOf o = true ∧ o.netOk = true ∧ s.selectedVotes ≠ [] ∧
      (handleFinalSubmit s o).state.selectedVotes = [] ∧
      (handleFinalSubmit s o).state.navigatedHome = true ∧
      (o.clearOk = true → (handleFinalSubmit s o).state.cacheToken = none) ∧
      (o.clearOk = true → o.deleteOk = true →
        (handleFinalSubmit s o).state.jwtToken = none)) := by
  obtain ⟨comp, enr, ch, net, errt, clr, del⟩ := o
  by_cases hlen : s.selectedVotes.length = 0
  · left
    cases comp <;> cases enr <;> cases ch <;>
      simp_all [handleFinalSubmit, authenticateWithBiometrics, authOkOf,
        hasStorageCall, isStorage, List.length_eq_zero]
  · have hne : s.selectedVotes ≠ [] := by
      intro h; rw [h] at hlen; exact hlen rfl
    by_cases hauth : comp = true ∧ enr = true ∧ ch = true ∧ net = true
    · obtain ⟨rfl, rfl, rfl, rfl⟩ := hauth
      right
      refine ⟨rfl, rfl, hne, ?_⟩
      cases clr <;> cases del <;>
        simp [handleFinalSubmit, hlen, authenticateWithBiometrics]
    · left
      cases comp <;> cases enr <;> cases ch <;> cases net <;>
        simp_all [handleFinalSubmit, hlen, authenticateWithBiometrics, authOkOf,
          hasStorageCall, isStorage]

/-- Selecting a candidate changes nothing but the selections record. -/
lemma handleSelect_fields (s : SessionState) (id : CandidateId) :
    (handleSelect s id).currentIndex = s.currentIndex ∧
    (handleSelect s id).showSummary = s.showSummary ∧
    (handleSelect s id).candidatesData = s.candidatesData ∧
    (handleSelect s id).jwtToken = s.jwtToken ∧
    (handleSelect s id).cacheToken = s.cacheToken ∧
    (handleSelect s id).navigatedHome = s.navigatedHome := by
  rcases hcat : s.candidatesData[s.currentIndex]? with _ | cat <;>
    simp [handleSelect, hcat]

/-- One interaction step either leaves the cursor in place or advances it by
exactly one, the latter only on a confirmed non-last vote outside review
mode. -/
lemma step_cursor (s : SessionState) (a : Action) :
    (step s a).currentIndex = s.currentIndex ∨
      ((step s a).currentIndex = s.currentIndex + 1 ∧ s.showSummary = false ∧
        isLastCategory s = false ∧ ∃ o, a = Action.vote o ∧ confirmedVoteAt s o) := by
  cases a with
  | select id =>
    left
    cases hs : s.showSummary <;> simp [step, hs, (handleSelect_fields s id).1]
  | vote o =>
    cases hs : s.showSummary
    · rcases handleVote_cases s o with ⟨h1, _⟩ | ⟨hauth, hnet, hsel, hrest⟩
      · left; simp [step, hs, h1]
      · rcases hrest with ⟨hl, hidx, _⟩ | ⟨hl, hidx, _⟩
        · left; simp [step, hs, hidx]
        · right
          exact ⟨by simp [step, hs, hidx], rfl, hl, o, rfl, hauth, hnet, hsel⟩
    · left; simp [step, hs]
  | finalSubmit o =>
    left
    cases hs : s.showSummary <;> simp [step, hs, (handleFinalSubmit_shape s o).2.1]

/-- Review mode is entered by an interaction step exactly through a confirmed
vote on the last category. -/
lemma step_summary_entry (s : SessionState) (a : Action)
    (h1 : s.showSummary = false) (h2 : (step s a).showSummary = true) :
    isLastCategory s = true ∧ ∃ o, a = Action.vote o ∧ confirmedVoteAt s o := by
  cases a with
  | select id =>
    rw [show step s (Action.select id) = handleSelect s id by simp [step, h1]] at h2
    rw [(handleSelect_fields s id).2.1, h1] at h2
    exact Bool.noConfusion h2
  | vote o =>
    rw [show step s (Action.vote o) = (handleVote s o).state by simp [step, h1]] at h2
    rcases handleVote_cases s o with ⟨_, hss⟩ | ⟨hauth, hnet, hsel, hrest⟩
    · rw [hss, h1] at h2; exact Bool.noConfusion h2
    · rcases hrest with ⟨hl, _, _⟩ | ⟨_, _, hss⟩
      · exact ⟨hl, o, rfl, hauth, hnet, hsel⟩
      · rw [hss, h1] at h2; exact Bool.noConfusion h2
  | finalSubmit o =>
    rw [show step s (Action.finalSubmit o) = s by simp [step, h1]] at h2
    rw [h1] at h2
    exact Bool.noConfusion h2

/-- No interaction step changes the loaded category list. -/
lemma step_candidatesData (s : SessionState) (a : Action) :
    (step s a).candidatesData = s.candidatesData := by
  cases a with
  | select id =>
    cases hs : s.showSummary <;> simp [step, hs, (handleSelect_fields s id).2.2.1]
  | vote o =>
    cases hs : s.showSummary <;> simp [step, hs, (handleVote_shape s o).1]
  | finalSubmit o =>
    cases hs : s.showSummary <;> simp [step, hs, (handleFinalSubmit_shape s o).1]

/-- In every reachable state the cursor is zero or strictly below the category
count; in particular it never reaches the category count on a nonempty
ballot. -/
lemma reachable_bound (s : SessionState) (h : Reachable s) :
    s.currentIndex = 0 ∨ s.currentIndex < s.candidatesData.length := by
  induction h with
  | init groups jwt cache => left; rfl
  | next s a hR ih =>
    rcases step_cursor s a with heq | ⟨hinc, _, hlast, o, _, hcv⟩
    · rw [step_candidatesData, heq]; exact ih
    · right
      rw [step_candidatesData, hinc]
      obtain ⟨_, _, cat, hcat, _⟩ := hcv
      have hlt : s.currentIndex < s.candidatesData.length := by
        by_contra hge
        push_neg at hge
        rw [List.getElem?_eq_none hge] at hcat
        exact Option.noConfusion hcat
      simp only [isLastCategory, decide_eq_false_iff_not] at hlast
      omega

/-- Counterexample for C4 as stated: on a reachable one-category session,
review mode is entered while the cursor still equals 0, so the session is
in review mode although the cursor never reached the category count 1. -/
theorem C4_counterexample :
    Reachable s4 ∧ s4.showSummary = true ∧ s4.currentIndex = 0 ∧
    s4.candidatesData.length = 1 :=
  ⟨Reachable.next _ _ (Reachable.next _ _ (Reachable.init [g0] none none)),
    by decide, by decide, by decide⟩

/-- Claim C4 as amended: the cursor starts at 0, never decreases, increases by
exactly one only on a confirmed non-last vote, review mode is entered
exactly by the confirmed vote on the last category with the cursor staying
at categoryCount - 1 (on reachable states the cursor never reaches the
category count), and once in review mode a vote action leaves the state
unchanged. -/
theorem C4_theorem (s : SessionState) (a : Action) (gs : List CandidateGroup)
    (jwt cache : Option String) :
    (initState gs jwt cache).currentIndex = 0 ∧
    (initState gs jwt cache).showSummary = false ∧
    s.currentIndex ≤ (step s a).currentIndex ∧
    ((step s a).currentIndex = s.currentIndex ∨
      ((step s a).currentIndex = s.currentIndex + 1 ∧ s.showSummary = false ∧
        isLastCategory s = false ∧ ∃ o, a = Action.vote o ∧ confirmedVoteAt s o)) ∧
    (s.showSummary = false → (step s a).showSummary = true →
      isLastCategory s = true ∧ ∃ o, a = Action.vote o ∧ confirmedVoteAt s o) ∧
    (∀ o, s.showSummary = true → step s (Action.vote o) = s) ∧
    (Reachable s → s.currentIndex = 0 ∨ s.currentIndex < s.candidatesData.length) := by
  refine ⟨rfl, rfl, ?_, step_cursor s a, step_summary_entry s a, ?_, reachable_bound s⟩
  · rcases step_cursor s a with heq | ⟨hinc, _⟩ <;> omega
  · intro o hs; simp [step, hs]

/-- Witness for C4 as amended: in the review-mode state `s4` a further vote
action is a no-op. -/
theorem C4_witness : step s4 (Action.vote goodOracle) = s4 :=
  ((C4_theorem s4 (Action.vote goodOracle) [] none none).2.2.2.2.2.1)
    goodOracle (by decide)

/-- Claim C6: the selections record is emptied only by a fully successful
final batch submission from review mode; a vote-handler run never changes
the record at all, so in particular the selection recorded for the current
category survives a confirmed vote that advances the cursor. -/
theorem C6_theorem (s : SessionState) (a : Action) :
    (s.selectedVotes ≠ [] → (step s a).selectedVotes = [] →
      s.showSummary = true ∧
        ∃ o, a = Action.finalSubmit o ∧ authOkOf o = true ∧ o.netOk = true) ∧
    (∀ o, (handleVote s o).state.selectedVotes = s.selectedVotes) ∧
    (∀ o cat cid, s.candidatesData[s.currentIndex]? = some cat →
      getKey s.selectedVotes cat.position = some cid →
      getKey (handleVote s o).state.selectedVotes cat.position = some cid) := by
  refine ⟨?_, fun o => (handleVote_shape s o).2.1, ?_⟩
  · intro hne hemp
    cases a with
    | select id =>
      cases hs : s.showSummary
      · rw [show step s (Action.select id) = handleSelect s id by simp [step, hs]] at hemp
        rcases hcat : s.candidatesData[s.currentIndex]? with _ | cat <;>
          simp only [handleSelect, hcat] at hemp
        · exact absurd hemp hne
        · exact absurd hemp (setKey_ne_nil _ _ _)
      · rw [show step s (Action.select id) = s by simp [step, hs]] at hemp
        exact absurd hemp hne
    | vote o =>
      cases hs : s.showSummary
      · rw [show step s (Action.vote o) = (handleVote s o).state by simp [step, hs]] at hemp
        rw [(handleVote_shape s o).2.1] at hemp
        exact absurd hemp hne
      · rw [show step s (Action.vote o) = s by simp [step, hs]] at hemp
        exact absurd hemp hne
    | finalSubmit o =>
      cases hs : s.showSummary
      · rw [show step s (Action.finalSubmit o) = s by simp [step, hs]] at hemp
        exact absurd hemp hne
      · rcases handleFinalSubmit_cases s o with ⟨hsel, _⟩ | ⟨hauth, hnet, _⟩
        · rw [show step s (Action.finalSubmit o) = (handleFinalSubmit s o).state by
              simp [step, hs]] at hemp
          rw [hsel] at hemp
          exact absurd hemp hne
        · exact ⟨rfl, o, rfl, hauth, hnet⟩
  · intro o cat cid hcat hsel
    rw [(handleVote_shape s o).2.1]
    exact hsel

/-- Witness for C6: after a confirmed vote on `s2` the selection for the just
voted category is still recorded. -/
theorem C6_witness :
    getKey (handleVote s2 goodOracle).state.selectedVotes g0.position
      = some (CandidateId.num 1) :=
  (C6_theorem s2 (Action.vote goodOracle)).2.2 goodOracle g0 (CandidateId.num 1) rfl rfl

/-- Claim C8: exactly on a fully successful final batch submission the
selections are cleared and navigation back to the entry point happens,
with the cache cleared when its clearing succeeds and the secure-store
credential deleted when both storage operations succeed; on any failed or
empty final submit, and on every per-category vote run, the credential
stores, the navigation flag and (for final submits) the selections are
untouched and no storage call is made. -/
theorem C8_theorem (s : SessionState) (o : Oracle) :
    (authOkOf o = true → o.netOk = true → s.selectedVotes ≠ [] →
      (handleFinalSubmit s o).state.selectedVotes = [] ∧
      (handleFinalSubmit s o).state.navigatedHome = true ∧
      (o.clearOk = true → (handleFinalSubmit s o).state.cacheToken = none) ∧
      (o.clearOk = true → o.deleteOk = true →
        (handleFinalSubmit s o).state.jwtToken = none)) ∧
    (authOkOf o = false ∨ o.netOk = false ∨ s.selectedVotes = [] →
      (handleFinalSubmit s o).state.jwtToken = s.jwtToken ∧
      (handleFinalSubmit s o).state.cacheToken = s.cacheToken ∧
      (handleFinalSubmit s o).state.selectedVotes = s.selectedVotes ∧
      (handleFinalSubmit s o).state.navigatedHome = s.navigatedHome ∧
      hasStorageCall (handleFinalSubmit s o).calls = false) ∧
    ((handleVote s o).state.jwtToken = s.jwtToken ∧
      (handleVote s o).state.cacheToken = s.cacheToken ∧
      hasStorageCall (handleVote s o).calls = false) := by
  refine ⟨?_, ?_, (handleVote_shape s o).2.2.1, (handleVote_shape s o).2.2.2.1,
    (handleVote_shape s o).2.2.2.2.2.2⟩
  · intro h1 h2 h3
    rcases handleFinalSubmit_cases s o with ⟨_, _, _, _, _, hfail⟩ |
        ⟨_, _, _, hsel, hnav, hcache, hjwt⟩
    · rcases hfail with h | h | h
      · rw [h1] at h; exact Bool.noConfusion h
      · rw [h2] at h; exact Bool.noConfusion h
      · exact absurd h h3
    · exact ⟨hsel, hnav, hcache, hjwt⟩
  · intro hfail
    rcases handleFinalSubmit_cases s o with ⟨hsel, hjwt, hcache, hnav, hcall, _⟩ |
        ⟨hauth, hnet, hne, _⟩
    · exact ⟨hjwt, hcache, hsel, hnav, hcall⟩
    · rcases hfail with h | h | h
      · rw [hauth] at h; exact Bool.noConfusion h
      · rw [hnet] at h; exact Bool.noConfusion h
      · exact absurd h hne

/-- Witness for C8: a fully successful final submit on the reachable review
state `s4` clears the selections and navigates back. -/
theorem C8_witness :
    (handleFinalSubmit s4 goodOracle).state.selectedVotes = [] ∧
    (handleFinalSubmit s4 goodOracle).state.navigatedHome = true := by
  have h := (C8_theorem s4 goodOracle).1 rfl rfl (by decide)
  exact ⟨h.1, h.2.1⟩

end VoteApp
